import Mathlib

/-!
Shallow embedding of the OsuPone judgement engine and chart parser
(src/osu-data.js, src/delete-beatmap.js).

JavaScript numbers are modelled by exact rationals where the source only
performs field arithmetic and comparisons, and by real numbers where the
source calls `Math.hypot` / trigonometric functions (curve geometry).
JavaScript division by zero (which yields Infinity / NaN) only occurs
outside the hypotheses of the theorems below; Lean's junk value `x / 0 = 0`
is used there.
-/

namespace OsuPone

/-! ### Tempo resolver (src/osu-data.js, getBeatLengthAtTime, lines 990-1009) -/

/-- One parsed timing point (src/delete-beatmap.js, parseTimingPoints):
`offset` ms, raw `msPerBeat` value, `inherited` flag (true iff raw < 0). -/
structure TimingPoint where
  offset : ℚ
  msPerBeat : ℚ
  inherited : Bool
deriving DecidableEq

/-- The scan loop of `getBeatLengthAtTime`: walks the list in order,
stopping (`break`) at the first point with `offset > time`; an uninherited
point overwrites the base beat length, an inherited one overwrites the
velocity multiplier with `-100 / msPerBeat`. -/
def beatLoop (time : ℚ) (base mult : ℚ) : List TimingPoint → ℚ
  | [] => base / mult
  | tp :: rest =>
    if tp.offset > time then base / mult
    else if tp.inherited then beatLoop time base (-100 / tp.msPerBeat) rest
    else beatLoop time tp.msPerBeat mult rest

/-- `getBeatLengthAtTime(time)` from src/osu-data.js lines 990-1009,
with defaults base 500 ms and multiplier 1. -/
def getBeatLengthAtTime (tps : List TimingPoint) (time : ℚ) : ℚ :=
  beatLoop time 500 1 tps

/-- Modelled from the spec: the resolver state update of one timing point
(uninherited sets the base, inherited sets the multiplier to -100/raw). -/
def applyTimingPoint (st : ℚ × ℚ) (tp : TimingPoint) : ℚ × ℚ :=
  if tp.inherited then (st.1, -100 / tp.msPerBeat) else (tp.msPerBeat, st.2)

/-- Modelled from the spec: fold the state update over a list of timing
points starting from base 500 / multiplier 1 and return base / multiplier. -/
def resolveTimingPoints (tps : List TimingPoint) : ℚ :=
  let st := tps.foldl applyTimingPoint (500, 1)
  st.1 / st.2

/-- Modelled from the spec words of C2: apply every point whose
`offset ≤ time` (a filter over the whole list), then return
base / multiplier. -/
def beatLengthAtEveryApplicable (tps : List TimingPoint) (time : ℚ) : ℚ :=
  resolveTimingPoints (tps.filter fun tp => decide (tp.offset ≤ time))

/-! ### Session statistics and scoring operations (src/osu-data.js) -/

/-- The mutable per-session statistics record
(src/osu-data.js, createEmptyStats, lines 539-551). -/
structure Stats where
  score : ℚ
  combo : ℕ
  maxCombo : ℕ
  hit300 : ℕ
  hit100 : ℕ
  hit50 : ℕ
  misses : ℕ
  health : ℚ
deriving DecidableEq

/-- `createEmptyStats()`: all counters zero, health 100. -/
def createEmptyStats : Stats :=
  ⟨0, 0, 0, 0, 0, 0, 0, 100⟩

/-- `startSlider` stats effect (src/osu-data.js lines 806-826): award
`floor(startHitValue / 3)` score, increment combo, refresh maxCombo. -/
def startSlider (startHitValue : ℚ) (st : Stats) : Stats :=
  { st with
    score := st.score + (⌊startHitValue / 3⌋ : ℤ)
    combo := st.combo + 1
    maxCombo := max st.maxCombo (st.combo + 1) }

/-- `processHit` stats effect (src/osu-data.js lines 828-855): bump the
tier counter, increment combo, refresh maxCombo, add
`hitValue + floor(hitValue * combo * multiplier * 0.01)` score, recover
`hitValue / 50` health clamped at 100. -/
def processHit (hitValue multiplier : ℚ) (st : Stats) : Stats :=
  let st :=
    if hitValue = 300 then { st with hit300 := st.hit300 + 1 }
    else if hitValue = 100 then { st with hit100 := st.hit100 + 1 }
    else { st with hit50 := st.hit50 + 1 }
  let newCombo : ℕ := st.combo + 1
  { st with
    combo := newCombo
    maxCombo := max st.maxCombo newCombo
    score := st.score + hitValue + (⌊hitValue * (newCombo : ℚ) * multiplier * (1 / 100)⌋ : ℤ)
    health := min 100 (st.health + hitValue / 50) }

/-- `processMiss` stats effect (src/osu-data.js lines 857-876): count a
miss, reset combo, subtract 8 health clamped at 0. -/
def processMiss (st : Stats) : Stats :=
  { st with
    misses := st.misses + 1
    combo := 0
    health := max 0 (st.health - 8) }

/-- `processSliderMiss` stats effect (src/osu-data.js lines 1588-1603),
for a slider whose head was never hit: count a miss, reset combo,
subtract 8 health clamped at 0. -/
def processSliderMiss (st : Stats) : Stats :=
  { st with
    misses := st.misses + 1
    combo := 0
    health := max 0 (st.health - 8) }

/-- The broken-tracking branch of `updateSliders`
(src/osu-data.js lines 1439-1444): losing tracking resets combo to 0 and
touches nothing else in the stats. -/
def breakSliderTracking (st : Stats) : Stats :=
  { st with combo := 0 }

/-- The tick-award branch of `updateSliders`
(src/osu-data.js lines 1452-1462): each batch of `newTicks` freshly
crossed ticks grants 10 score per tick, combo per tick, and 1 health per
tick clamped at 100. -/
def awardSliderTicks (newTicks : ℕ) (st : Stats) : Stats :=
  { st with
    score := st.score + 10 * newTicks
    combo := st.combo + newTicks
    maxCombo := max st.maxCombo (st.combo + newTicks)
    health := min 100 (st.health + newTicks) }

/-- The live tracking fields of a slider judgement record
(src/osu-data.js, loadBeatmap lines 963-975): `totalTicks` is
`ticksPerSlide * slides`. -/
structure SliderRecord where
  tracking : Bool
  trackingBroken : Bool
  ticksHit : ℕ
  totalTicks : ℕ
  slides : ℕ
deriving DecidableEq

/-- `completeSlider` stats effect (src/osu-data.js lines 1532-1566):
end-of-slider bonus when still tracking; final tier from
`tickFrac = ticksHit / (totalTicks * slides)` (or 1 when that product is
zero); counter, combo and health updates of the chosen branch. -/
def completeSlider (sl : SliderRecord) (st : Stats) : Stats :=
  let st :=
    if sl.tracking = true ∧ sl.trackingBroken = false then
      { st with score := st.score + 30 }
    else st
  let maxTicks : ℕ := sl.totalTicks * sl.slides
  let tickFrac : ℚ := if maxTicks > 0 then (sl.ticksHit : ℚ) / (maxTicks : ℚ) else 1
  if 9 / 10 ≤ tickFrac ∧ sl.trackingBroken = false then
    { st with hit300 := st.hit300 + 1, health := min 100 (st.health + 300 / 50) }
  else if 1 / 2 ≤ tickFrac then
    { st with hit100 := st.hit100 + 1, health := min 100 (st.health + 100 / 50) }
  else if 0 < tickFrac then
    { st with hit50 := st.hit50 + 1, health := min 100 (st.health + 50 / 50) }
  else
    { st with misses := st.misses + 1, combo := 0, health := max 0 (st.health - 5) }

/-- One scoring operation of the judgement engine, as a relation between
the stats before and after (slider start, circle hit, tick award, circle
miss, slider head miss, broken tracking, slider completion). -/
inductive ScoringStep : Stats → Stats → Prop
  | start (hv : ℚ) (st : Stats) : ScoringStep st (startSlider hv st)
  | hit (hv mult : ℚ) (st : Stats) : ScoringStep st (processHit hv mult st)
  | ticks (n : ℕ) (st : Stats) : ScoringStep st (awardSliderTicks n st)
  | miss (st : Stats) : ScoringStep st (processMiss st)
  | sliderMiss (st : Stats) : ScoringStep st (processSliderMiss st)
  | broken (st : Stats) : ScoringStep st (breakSliderTracking st)
  | complete (sl : SliderRecord) (st : Stats) : ScoringStep st (completeSlider sl st)

/-! ### Derived timing constants (src/delete-beatmap.js) -/

/-- `getHitWindows(od)` (src/delete-beatmap.js lines 431-437). -/
structure HitWindows where
  hit300 : ℚ
  hit100 : ℚ
  hit50 : ℚ
deriving DecidableEq

def getHitWindows (od : ℚ) : HitWindows :=
  ⟨80 - 6 * od, 140 - 8 * od, 200 - 10 * od⟩

/-- The tier chosen by `processHitAtPosition` for a qualifying input
(src/osu-data.js lines 776-785), given the absolute timing offset. -/
def hitTier (od : ℚ) (absOffset : ℚ) : ℕ :=
  let w := getHitWindows od
  if absOffset ≤ w.hit300 then 300
  else if absOffset ≤ w.hit100 then 100
  else 50

/-- The window test that lets an input qualify for an object at all
(src/osu-data.js line 769): the absolute offset is at most `hit50`. -/
def qualifiesByTime (od : ℚ) (absOffset : ℚ) : Prop :=
  absOffset ≤ (getHitWindows od).hit50

/-! ### Accuracy and grade (src/osu-data.js lines 1231-1253) -/

/-- `calculateAccuracy()`: 100 when nothing was judged, else the
300-weighted percentage. -/
def calculateAccuracy (st : Stats) : ℚ :=
  let total : ℕ := st.hit300 + st.hit100 + st.hit50 + st.misses
  if total = 0 then 100
  else ((st.hit300 * 300 + st.hit100 * 100 + st.hit50 * 50 : ℚ) / ((total : ℚ) * 300)) * 100

/-- `calculateGrade()`: "D" when nothing was judged, else thresholds on
accuracy, the 300-share, the 50-share and the miss count. -/
def calculateGrade (st : Stats) : String :=
  let total : ℕ := st.hit300 + st.hit100 + st.hit50 + st.misses
  if total = 0 then "D"
  else
    let acc := calculateAccuracy st
    let share300 : ℚ := (st.hit300 : ℚ) / (total : ℚ)
    let share50 : ℚ := (st.hit50 : ℚ) / (total : ℚ)
    if acc = 100 then "S"
    else if 9 / 10 < share300 ∧ share50 < 1 / 100 ∧ st.misses = 0 then "S"
    else if (8 / 10 < share300 ∧ st.misses = 0) ∨ 9 / 10 < share300 then "A"
    else if (7 / 10 < share300 ∧ st.misses = 0) ∨ 8 / 10 < share300 then "B"
    else if 6 / 10 < share300 then "C"
    else "D"

/-! ### String primitives used by the chart parser

Lines are modelled as `List Char`; `String.prototype.split(sep)`,
`trim()`, `indexOf` / `slice`, `parseInt` and `Number` are embedded below.
-/

/-- The whitespace characters relevant to chart lines, as trimmed by
JavaScript `trim()`. -/
def jsIsSpace (c : Char) : Bool :=
  c = ' ' || c = '\t' || c = '\n' || c = '\r'

/-- JavaScript `s.trim()`. -/
def jsTrim (s : List Char) : List Char :=
  ((s.dropWhile jsIsSpace).reverse.dropWhile jsIsSpace).reverse

/-- JavaScript `s.split(sep)` for a one-character separator: always
returns at least one group. -/
def splitOnChar (sep : Char) : List Char → List (List Char)
  | [] => [[]]
  | c :: rest =>
    if c = sep then [] :: splitOnChar sep rest
    else
      match splitOnChar sep rest with
      | [] => [[c]]
      | g :: gs => (c :: g) :: gs

/-- `line.indexOf(sep)` combined with the two `slice` calls: `none` when
the separator does not occur, otherwise the text before the first
occurrence and the whole text after it. -/
def firstSplitAtChar (sep : Char) : List Char → Option (List Char × List Char)
  | [] => none
  | c :: rest =>
    if c = sep then some ([], rest)
    else (firstSplitAtChar sep rest).map fun p => (c :: p.1, p.2)

/-- The numeric value of a maximal run of leading decimal digits:
`none` when the first character is not a digit. -/
def leadingDigitsVal (s : List Char) : Option ℕ :=
  match s.takeWhile (·.isDigit) with
  | [] => none
  | ds => some (ds.foldl (fun n c => 10 * n + (c.toNat - 48)) 0)

/-- JavaScript `parseInt(s)` on decimal strings: skip leading whitespace,
read an optional sign and the leading digit run; `none` models `NaN`. -/
def jsParseInt (s : List Char) : Option ℤ :=
  let t := s.dropWhile jsIsSpace
  match t with
  | '-' :: rest => (leadingDigitsVal rest).map fun n => -(n : ℤ)
  | '+' :: rest => (leadingDigitsVal rest).map fun n => (n : ℤ)
  | _ => (leadingDigitsVal t).map fun n => (n : ℤ)

/-- The fractional value of a digit run read after a decimal point. -/
def fractionDigitsVal (ds : List Char) : ℚ :=
  (ds.foldr (fun c acc => ((c.toNat - 48 : ℕ) + acc) / 10) 0)

/-- An unsigned decimal literal `digits[.digits]` read from the front of
the string; returns the value and the unconsumed rest, or `none` when the
string does not start with a digit. -/
def readUnsignedDecimal (s : List Char) : Option (ℚ × List Char) :=
  match leadingDigitsVal s with
  | none => none
  | some intPart =>
    let rest := s.dropWhile (·.isDigit)
    match rest with
    | '.' :: afterDot =>
      let fracDigits := afterDot.takeWhile (·.isDigit)
      some ((intPart : ℚ) + fractionDigitsVal fracDigits, afterDot.dropWhile (·.isDigit))
    | _ => some ((intPart : ℚ), rest)

/-- JavaScript `parseFloat(s)` on decimal strings: skip leading
whitespace, optional sign, longest decimal prefix; `none` models `NaN`. -/
def jsParseFloat (s : List Char) : Option ℚ :=
  let t := s.dropWhile jsIsSpace
  match t with
  | '-' :: rest => (readUnsignedDecimal rest).map fun p => -p.1
  | '+' :: rest => (readUnsignedDecimal rest).map fun p => p.1
  | _ => (readUnsignedDecimal t).map fun p => p.1

/-- JavaScript `Number(s)` on decimal strings: the whole (trimmed) string
must be a decimal literal, the empty string converts to 0; `none` models
`NaN`. -/
def jsNumber (s : List Char) : Option ℚ :=
  let t := jsTrim s
  match t with
  | [] => some 0
  | '-' :: rest =>
    match readUnsignedDecimal rest with
    | some (v, []) => some (-v)
    | _ => none
  | '+' :: rest =>
    match readUnsignedDecimal rest with
    | some (v, []) => some v
    | _ => none
  | _ =>
    match readUnsignedDecimal t with
    | some (v, []) => some v
    | _ => none

/-! ### Key/value extraction (src/delete-beatmap.js) -/

/-- The loop body of `OsuParser.parseGeneral` (src/delete-beatmap.js
lines 209-223) for one line: `line.split(':')` destructured into its
first two components, both trimmed, kept only when the key is truthy and
the value component exists. -/
def generalKV (line : List Char) : Option (List Char × List Char) :=
  match (splitOnChar ':' line).map jsTrim with
  | k :: v :: _ => if k = [] then none else some (k, v)
  | _ => none

/-- The loop body of `OsuParser.parseMetadata` (src/delete-beatmap.js
lines 228-245) for one line: split at the first colon via
`indexOf` / `slice`, both sides trimmed. -/
def metadataKV (line : List Char) : Option (List Char × List Char) :=
  (firstSplitAtChar ':' line).map fun p => (jsTrim p.1, jsTrim p.2)

/-- The loop body of `OsuParser.parseDifficulty` (src/delete-beatmap.js
lines 250-266) for one line: the same `split(':')` destructuring as
`parseGeneral`; the stored value is `parseFloat` of the value component
(not modelled here because the claim concerns the split itself). -/
def difficultyKV (line : List Char) : Option (List Char × List Char) :=
  match (splitOnChar ':' line).map jsTrim with
  | k :: v :: _ => if k = [] then none else some (k, v)
  | _ => none

/-! ### Hit-object parsing (src/delete-beatmap.js, parseHitObjects, lines 324-411) -/

/-- JavaScript `x || d` for an integer that may be `NaN` (`none`):
falsy values (`NaN` and 0) fall back to the default. -/
def jsOrElseInt (x : Option ℤ) (d : ℤ) : ℤ :=
  match x with
  | some n => if n = 0 then d else n
  | none => d

/-- JavaScript `x || d` for a float that may be `NaN` (`none`). -/
def jsOrElseQ (x : Option ℚ) (d : ℚ) : ℚ :=
  match x with
  | some n => if n = 0 then d else n
  | none => d

/-- The unsigned 32-bit pattern JavaScript bitwise operators see:
`NaN` converts to 0, integers are reduced modulo 2^32. -/
def toUInt32Bits : Option ℤ → ℕ
  | none => 0
  | some n => (n % (4294967296 : ℤ)).toNat

/-- Slider-only fields of a parsed hit object. -/
structure SliderData where
  curveType : List Char
  controlPoints : List (ℚ × ℚ)
  slides : ℤ
  sliderLen : ℚ
deriving DecidableEq

/-- A parsed hit object: `sliderData = none` for a circle.  `x`, `y` and
`time` are `parseInt` results (`none` models `NaN`). -/
structure HitObj where
  x : Option ℤ
  y : Option ℤ
  time : Option ℤ
  hitSound : ℤ
  isNewCombo : Bool
  comboNumber : ℕ
  comboColorIndex : ℕ
  sliderData : Option SliderData
deriving DecidableEq

/-- One slider control point `"px:py"`: kept only when it contains a
colon and both `Number(...)` conversions succeed. -/
def parseControlPoint (p : List Char) : Option (ℚ × ℚ) :=
  if p.contains ':' then
    match splitOnChar ':' p with
    | a :: b :: _ =>
      match jsNumber a, jsNumber b with
      | some px, some py => some (px, py)
      | _, _ => none
    | _ => none
  else none

/-- The body of the `parseHitObjects` loop, carrying the running combo
number and combo color index.  A malformed line (fewer than 4 fields) and
a spinner line are skipped without touching the combo state; every other
line updates the combo state, and emits an object only when the circle or
slider bit is set. -/
def parseHitObjectsGo (safeCount : ℕ) : ℕ → ℕ → List (List Char) → List HitObj
  | _, _, [] => []
  | comboNumber, comboColorIndex, line :: rest =>
    let parts := splitOnChar ',' line
    if parts.length < 4 then parseHitObjectsGo safeCount comboNumber comboColorIndex rest
    else
      let typeBits : ℕ := toUInt32Bits (jsParseInt (parts.getD 3 []))
      if (typeBits &&& 8) ≠ 0 then
        parseHitObjectsGo safeCount comboNumber comboColorIndex rest
      else
        let isNewCombo : Bool := decide ((typeBits &&& 4) ≠ 0)
        let comboSkip : ℕ := (typeBits >>> 4) &&& 7
        let cn : ℕ := if isNewCombo then 1 else comboNumber + 1
        let ci : ℕ :=
          if isNewCombo then (comboColorIndex + 1 + comboSkip) % safeCount
          else comboColorIndex
        let x := jsParseInt (parts.getD 0 [])
        let y := jsParseInt (parts.getD 1 [])
        let time := jsParseInt (parts.getD 2 [])
        let hitSound : ℤ := jsOrElseInt ((parts.getD 4 []) |> jsParseInt) 0
        let next := parseHitObjectsGo safeCount cn ci rest
        if (typeBits &&& 2) ≠ 0 then
          let curveData := parts.getD 5 []
          let slides : ℤ := jsOrElseInt (jsParseInt (parts.getD 6 [])) 1
          let sliderLen : ℚ := jsOrElseQ (jsParseFloat (parts.getD 7 [])) 100
          let curveParts := splitOnChar '|' curveData
          let ct0 := curveParts.headD []
          let curveType := if ct0 = [] then ['B'] else ct0
          let controlPoints := (curveParts.drop 1).filterMap parseControlPoint
          ⟨x, y, time, hitSound, isNewCombo, cn, ci,
            some ⟨curveType, controlPoints, slides, sliderLen⟩⟩ :: next
        else if (typeBits &&& 1) ≠ 0 then
          ⟨x, y, time, hitSound, isNewCombo, cn, ci, none⟩ :: next
        else next

/-- `OsuParser.parseHitObjects(lines, comboColorCount)`: the combo number
starts at 0, the color index at 0, the palette size is clamped below
at 1. -/
def parseHitObjects (lines : List (List Char)) (comboColorCount : ℕ) : List HitObj :=
  parseHitObjectsGo (max 1 comboColorCount) 0 0 lines

/-- Whether a `[HitObjects]` line either emits a parsed object or leaves
the combo state untouched: true for malformed lines, spinner lines, and
lines whose type bitmask has the circle or slider bit; false exactly for
the lines that advance the combo counter without emitting an object. -/
def lineEmits (line : List Char) : Bool :=
  let parts := splitOnChar ',' line
  if parts.length < 4 then true
  else
    let typeBits : ℕ := toUInt32Bits (jsParseInt (parts.getD 3 []))
    if (typeBits &&& 8) ≠ 0 then true
    else decide ((typeBits &&& 2) ≠ 0) || decide ((typeBits &&& 1) ≠ 0)

/-- The combo relation claimed between the running combo state and the
next emitted object: a new-combo object resets the combo number to 1 and
advances the color index by `1 + s` modulo the palette size for the
line's combo-skip value `s ≤ 7`; any other object increments the combo
number and keeps the color index. -/
def comboRel (paletteSize : ℕ) (cn ci : ℕ) (o : HitObj) : Prop :=
  (o.isNewCombo = true ∧ o.comboNumber = 1 ∧
    ∃ s, s ≤ 7 ∧ o.comboColorIndex = (ci + 1 + s) % max 1 paletteSize) ∨
  (o.isNewCombo = false ∧ o.comboNumber = cn + 1 ∧ o.comboColorIndex = ci)

/-- The combo invariant threaded along a list of parsed objects: each
object relates to the state left by its predecessor. -/
def comboChain (paletteSize : ℕ) (cn ci : ℕ) : List HitObj → Prop
  | [] => True
  | o :: rest => comboRel paletteSize cn ci o ∧ comboChain paletteSize o.comboNumber o.comboColorIndex rest

/-! ### Curve geometry engine (src/delete-beatmap.js, lines 469-685)

Coordinates are real numbers; `Math.hypot`, `Math.atan2`, `Math.cos` and
`Math.sin` are the corresponding real functions.
-/

/-- A 2D point of the 512x384 playfield. -/
structure Pt where
  x : ℝ
  y : ℝ

instance : Inhabited Pt := ⟨⟨0, 0⟩⟩

noncomputable instance : DecidableEq Pt := fun _ _ => Classical.dec _

/-- `Math.hypot(a, b)`. -/
noncomputable def jsHypot (a b : ℝ) : ℝ := Real.sqrt (a ^ 2 + b ^ 2)

/-- The segment length `Math.hypot(q.x - p.x, q.y - p.y)` used throughout
the curve engine. -/
noncomputable def ptDist (p q : Pt) : ℝ := jsHypot (q.x - p.x) (q.y - p.y)

/-- The linear interpolation `p + (q - p) * t` used by the curve engine. -/
noncomputable def lerpPt (p q : Pt) (t : ℝ) : Pt :=
  ⟨p.x + (q.x - p.x) * t, p.y + (q.y - p.y) * t⟩

/-- Cumulative polyline length of a sampled curve. -/
noncomputable def polylineLength : List Pt → ℝ
  | p :: q :: rest => ptDist p q + polylineLength (q :: rest)
  | _ => 0

/-- The loop of `trimCurveToLength` (src/delete-beatmap.js lines
658-685), carrying the previous point and the accumulated length: once
the accumulated length would meet or exceed the target, the final partial
segment is interpolated to land exactly on the target and the walk
stops. -/
noncomputable def trimGo (target : ℝ) : Pt → ℝ → List Pt → List Pt
  | _, _, [] => []
  | prev, cum, curr :: rest =>
    let seg := ptDist prev curr
    if target ≤ cum + seg then [lerpPt prev curr ((target - cum) / seg)]
    else curr :: trimGo target curr (cum + seg) rest

/-- `OsuParser.trimCurveToLength(points, targetLength)`: lists of fewer
than 2 points are returned unchanged. -/
noncomputable def trimCurveToLength (points : List Pt) (target : ℝ) : List Pt :=
  match points with
  | [] => []
  | [p] => [p]
  | p :: rest => p :: trimGo target p 0 rest

/-- One De Casteljau reduction step: adjacent interpolations of the point
list (the inner loop of `bezierPoint`). -/
noncomputable def deCasteljauStep (t : ℝ) : List Pt → List Pt
  | p :: q :: rest => lerpPt p q t :: deCasteljauStep t (q :: rest)
  | _ => []

/-- The recursion of `OsuParser.bezierPoint`, with the initial list
length as structural fuel (each reduction step shortens the list by one,
so the fuel is never exhausted on the source's inputs). -/
noncomputable def bezierPointGo : ℕ → List Pt → ℝ → Pt
  | _, [p], _ => p
  | fuel + 1, p :: q :: rest, t => bezierPointGo fuel (deCasteljauStep t (p :: q :: rest)) t
  | _, _, _ => ⟨0, 0⟩

/-- `OsuParser.bezierPoint(points, t)` by repeated linear interpolation. -/
noncomputable def bezierPoint (pts : List Pt) (t : ℝ) : Pt :=
  bezierPointGo pts.length pts t

/-- The loop of `splitBezierSegments` (src/delete-beatmap.js lines
514-538): a point equal to its predecessor closes the current segment
(kept only when it has more than one point) and starts a new one. -/
noncomputable def splitSegsGo : List Pt → Pt → List Pt → List (List Pt)
  | cur, _, [] => if cur.length > 1 then [cur] else []
  | cur, prev, curr :: rest =>
    if prev = curr then
      (if cur.length > 1 then [cur] else []) ++ splitSegsGo [curr] curr rest
    else splitSegsGo (cur ++ [curr]) curr rest

/-- `OsuParser.splitBezierSegments(points)`: falls back to the whole
point list when no segment was collected. -/
noncomputable def splitBezierSegments : List Pt → List (List Pt)
  | [] => [[]]
  | p :: rest =>
    let segs := splitSegsGo [p] p rest
    if segs.length > 0 then segs else [p :: rest]

/-- `OsuParser.generateBezierCurve(points, resolution)` (lines 493-509):
each sub-curve with at least 2 points is sampled at the `resolution + 1`
uniform parameter values `k / resolution`. -/
noncomputable def generateBezierCurve (points : List Pt) (res : ℕ) : List Pt :=
  if points.length < 2 then points
  else
    ((splitBezierSegments points).map fun seg =>
      if seg.length < 2 then []
      else (List.range (res + 1)).map fun k : ℕ => bezierPoint seg ((k : ℝ) / (res : ℝ))).flatten

/-- `OsuParser.generateLinearCurve(points, resolution)` (lines 560-580):
each of the `n - 1` segments is sampled at
`ceil(resolution / (n - 1)) + 1` uniform parameter values. -/
noncomputable def generateLinearCurve (points : List Pt) (res : ℕ) : List Pt :=
  if points.length < 2 then points
  else
    let segCount := points.length - 1
    let pps := (res + segCount - 1) / segCount
    ((List.range segCount).map fun i : ℕ =>
      (List.range (pps + 1)).map fun j : ℕ =>
        lerpPt (points.getD i ⟨0, 0⟩) (points.getD (i + 1) ⟨0, 0⟩) ((j : ℝ) / (pps : ℝ))).flatten

/-- `Math.atan2(y, x)` (up to the sign of zero, which the engine never
distinguishes). -/
noncomputable def jsAtan2 (y x : ℝ) : ℝ :=
  if 0 < x then Real.arctan (y / x)
  else if x < 0 then
    if 0 ≤ y then Real.arctan (y / x) + Real.pi else Real.arctan (y / x) - Real.pi
  else if 0 < y then Real.pi / 2
  else if y < 0 then -(Real.pi / 2)
  else 0

/-- `OsuParser.getCircleCenter(p1, p2, p3)` (lines 638-653): circumcenter
via the determinant formula, `none` when `|d| < 0.0001` (collinear). -/
noncomputable def getCircleCenter (p1 p2 p3 : Pt) : Option Pt :=
  let d := 2 * (p1.x * (p2.y - p3.y) + p2.x * (p3.y - p1.y) + p3.x * (p1.y - p2.y))
  if |d| < 1 / 10000 then none
  else
    some
      ⟨((p1.x ^ 2 + p1.y ^ 2) * (p2.y - p3.y) + (p2.x ^ 2 + p2.y ^ 2) * (p3.y - p1.y) +
          (p3.x ^ 2 + p3.y ^ 2) * (p1.y - p2.y)) / d,
        ((p1.x ^ 2 + p1.y ^ 2) * (p3.x - p2.x) + (p2.x ^ 2 + p2.y ^ 2) * (p1.x - p3.x) +
          (p3.x ^ 2 + p3.y ^ 2) * (p2.x - p1.x)) / d⟩

/-- `OsuParser.generatePerfectCircleCurve(points, resolution)` (lines
585-633): fewer than 3 points or a collinear triple fall back to the
linear method; otherwise the arc from the start angle through the signed
sweep (direction from the cross product) is sampled at `resolution + 1`
uniform steps.  The source also computes `midAngle`, which it never
uses. -/
noncomputable def generatePerfectCircleCurve (points : List Pt) (res : ℕ) : List Pt :=
  match points with
  | p1 :: p2 :: p3 :: _ =>
    match getCircleCenter p1 p2 p3 with
    | none => generateLinearCurve points res
    | some center =>
      let radius := jsHypot (p1.x - center.x) (p1.y - center.y)
      let startAngle := jsAtan2 (p1.y - center.y) (p1.x - center.x)
      let endAngle := jsAtan2 (p3.y - center.y) (p3.x - center.x)
      let cross := (p2.x - p1.x) * (p3.y - p1.y) - (p2.y - p1.y) * (p3.x - p1.x)
      let diff0 := endAngle - startAngle
      let angleDiff :=
        if cross < 0 then if 0 < diff0 then diff0 - 2 * Real.pi else diff0
        else if diff0 < 0 then diff0 + 2 * Real.pi else diff0
      (List.range (res + 1)).map fun i : ℕ =>
        let angle := startAngle + angleDiff * ((i : ℝ) / (res : ℝ))
        ⟨center.x + radius * Real.cos angle, center.y + radius * Real.sin angle⟩
  | _ => generateLinearCurve points res

/-- The `switch` of `OsuParser.generateCurve` (lines 469-484): the raw
sampled curve before length normalization, over the start point followed
by the control points ('B' is the default curve type). -/
noncomputable def generateCurveRaw (curveType : List Char) (startX startY : ℝ)
    (controlPoints : List Pt) (res : ℕ) : List Pt :=
  let allPoints := ⟨startX, startY⟩ :: controlPoints
  if curveType = ['L'] then generateLinearCurve allPoints res
  else if curveType = ['P'] then generatePerfectCircleCurve allPoints res
  else generateBezierCurve allPoints res

/-- `OsuParser.generateCurve(curveType, startX, startY, controlPoints,
length, resolution)`: the raw curve trimmed to the target length. -/
noncomputable def generateCurve (curveType : List Char) (startX startY : ℝ)
    (controlPoints : List Pt) (targetLen : ℝ) (res : ℕ) : List Pt :=
  trimCurveToLength (generateCurveRaw curveType startX startY controlPoints res) targetLen

/-! ## Theorems -/

/-- The scan loop applied from any state equals the fold of the state
update over the longest initial run of points with `offset ≤ time`. -/
theorem beatLoop_eq (tps : List TimingPoint) :
    ∀ base mult time, beatLoop time base mult tps =
      ((tps.takeWhile fun tp => decide (tp.offset ≤ time)).foldl applyTimingPoint (base, mult)).1 /
        ((tps.takeWhile fun tp => decide (tp.offset ≤ time)).foldl applyTimingPoint (base, mult)).2 := by
  induction tps with
  | nil => intro base mult time; rfl
  | cons tp rest ih =>
    intro base mult time
    by_cases h : tp.offset > time
    · have hd : (decide (tp.offset ≤ time)) = false := by
        simp [decide_eq_false_iff_not, not_le, h]
      simp [beatLoop, h, List.takeWhile, hd]
    · have hle : tp.offset ≤ time := not_lt.mp h
      have hd : (decide (tp.offset ≤ time)) = true := by simp [hle]
      by_cases hi : tp.inherited
      · simp [beatLoop, h, hi, List.takeWhile, hd, applyTimingPoint, ih]
      · simp [beatLoop, h, hi, List.takeWhile, hd, applyTimingPoint, ih]

/-- Claim C2 (amended): `getBeatLengthAtTime` applies every point in the
longest initial run of the file-ordered list whose offsets are `≤ time`
(it stops scanning at the first point with `offset > time`; a later point
with `offset ≤ time` after such a point is not applied), uninherited
points setting the base beat length and inherited points setting the
multiplier to `-100 / raw`; it returns base / multiplier, with defaults
500 and 1, and on `[(0, 500, uninherited), (1000, -50, inherited)]` at
time 1500 it returns 250. -/
theorem getBeatLengthAtTime_leading_run :
    (∀ tps time, getBeatLengthAtTime tps time =
      resolveTimingPoints (tps.takeWhile fun tp => decide (tp.offset ≤ time))) ∧
    (∀ time, getBeatLengthAtTime [] time = 500) ∧
    getBeatLengthAtTime [⟨0, 500, false⟩, ⟨1000, -50, true⟩] 1500 = 250 := by
  refine ⟨fun tps time => ?_, fun time => ?_, ?_⟩
  · simpa [resolveTimingPoints] using beatLoop_eq tps 500 1 time
  · norm_num [getBeatLengthAtTime, beatLoop]
  · norm_num [getBeatLengthAtTime, beatLoop]

/-- Claim C2 counterexample: on a list that is not sorted by offset, the
code (which stops at the first point with `offset > time`) differs from
the claimed "applies every point whose offset ≤ time": with points
`[(2000, 400, uninherited), (0, 300, uninherited)]` and time 1000 the
code returns the default 500, while applying every applicable point
would return 300. -/
theorem getBeatLengthAtTime_unsorted_counterexample :
    getBeatLengthAtTime [⟨2000, 400, false⟩, ⟨0, 300, false⟩] 1000 = 500 ∧
    beatLengthAtEveryApplicable [⟨2000, 400, false⟩, ⟨0, 300, false⟩] 1000 = 300 ∧
    (500 : ℚ) ≠ 300 := by
  refine ⟨?_, ?_, by norm_num⟩
  · norm_num [getBeatLengthAtTime, beatLoop]
  · norm_num [beatLengthAtEveryApplicable, resolveTimingPoints, List.filter, applyTimingPoint]

/-- Claim C1: evaluation of `completeSlider` at the failing input.  A
2-slide slider with 1 tick per slide (`totalTicks = 2`) on which every
tick was hit (`ticksHit = 2 = totalTicks`) and whose tracking was never
broken resolves as 100, not 300: the code divides `ticksHit` by
`totalTicks * slides = 4` (double-counting the slides factor already
contained in `totalTicks`), giving 0.5 instead of the claimed fraction
`ticksHit / totalTicks = 1`. -/
theorem completeSlider_full_ticks_two_slides_is_100 :
    (let sl : SliderRecord := ⟨true, false, 2, 2, 2⟩
     sl.ticksHit = sl.totalTicks ∧ sl.trackingBroken = false ∧
       (completeSlider sl createEmptyStats).hit100 = createEmptyStats.hit100 + 1 ∧
       (completeSlider sl createEmptyStats).hit300 = createEmptyStats.hit300) := by
  refine ⟨rfl, rfl, ?_, ?_⟩ <;> norm_num [completeSlider, createEmptyStats]

/-- Claim C3 counterexample: a started slider whose tracking broke with
none of its (one) ticks hit completes with a Miss (`misses` increments)
but its health penalty is 5, not 8: from full health 100 the result is
95 rather than 92. -/
theorem completeSlider_miss_subtracts_five :
    (completeSlider ⟨false, true, 0, 1, 1⟩ createEmptyStats).misses =
      createEmptyStats.misses + 1 ∧
    (completeSlider ⟨false, true, 0, 1, 1⟩ createEmptyStats).health = 95 ∧
    (95 : ℚ) ≠ 100 - 8 := by
  refine ⟨?_, ?_, by norm_num⟩ <;> norm_num [completeSlider, createEmptyStats]

/-- Claim C3 (amended): a circle timing out (`processMiss`) and a slider
whose head was never hit (`processSliderMiss`) each subtract exactly 8
from health, clamped below at 0, and count a miss; a slider that
completes with a zero fraction of ticks hit counts a miss but subtracts
5, not 8; a broken slider-tracking event by itself leaves health
unchanged. -/
theorem miss_health_penalties :
    ∀ (st : Stats) (sl : SliderRecord),
      (processMiss st).health = max 0 (st.health - 8) ∧
      (processMiss st).misses = st.misses + 1 ∧
      (processSliderMiss st).health = max 0 (st.health - 8) ∧
      (processSliderMiss st).misses = st.misses + 1 ∧
      (breakSliderTracking st).health = st.health ∧
      (sl.totalTicks * sl.slides ≠ 0 → sl.ticksHit = 0 →
        (completeSlider sl st).health = max 0 (st.health - 5) ∧
        (completeSlider sl st).misses = st.misses + 1) := by
  intro st sl
  refine ⟨rfl, rfl, rfl, rfl, rfl, fun hmt hth => ?_⟩
  have hpos : 0 < sl.totalTicks * sl.slides := Nat.pos_of_ne_zero hmt
  by_cases htr : sl.tracking = true ∧ sl.trackingBroken = false <;>
    simp [completeSlider, htr, hpos, hth] <;> norm_num

/-- Witness for `miss_health_penalties` at a concrete state and slider. -/
theorem miss_health_penalties_witness :
    (processMiss createEmptyStats).health = max 0 (createEmptyStats.health - 8) ∧
    ((1 : ℕ) * 1 ≠ 0 ∧
      (completeSlider ⟨false, true, 0, 1, 1⟩ createEmptyStats).health =
        max 0 (createEmptyStats.health - 5)) := by
  have h := miss_health_penalties createEmptyStats ⟨false, true, 0, 1, 1⟩
  exact ⟨h.1, by norm_num, (h.2.2.2.2.2 (by norm_num) rfl).1⟩

/-- Claim C6: the hit windows are `hit300 = 80 - 6*od`,
`hit100 = 140 - 8*od`, `hit50 = 200 - 10*od`, and a qualifying input with
absolute offset `d` is classified with inclusive boundaries
(`d ≤ hit300 → 300`, `hit300 < d ≤ hit100 → 100`, otherwise 50); at
`od = 5` the windows are 50/100/150, an offset of exactly 50 is a 300 and
50.01 is a 100. -/
theorem hit_window_tiers :
    (∀ od d : ℚ, 0 ≤ d → d ≤ (getHitWindows od).hit50 →
      (d ≤ (getHitWindows od).hit300 → hitTier od d = 300) ∧
      ((getHitWindows od).hit300 < d → d ≤ (getHitWindows od).hit100 → hitTier od d = 100) ∧
      ((getHitWindows od).hit100 < d → hitTier od d = 50)) ∧
    getHitWindows 5 = ⟨50, 100, 150⟩ ∧
    hitTier 5 50 = 300 ∧ hitTier 5 (5001 / 100) = 100 := by
  refine ⟨fun od d h0 h50 => ⟨fun h3 => ?_, fun h3 h1 => ?_, fun h1 => ?_⟩, ?_, ?_, ?_⟩
  · simp [hitTier, h3]
  · simp [hitTier, not_le.mpr h3, h1]
  · have hn3 : ¬d ≤ (getHitWindows od).hit300 := by
      simp only [getHitWindows] at h0 h50 h1 ⊢
      intro hc
      linarith
    simp [hitTier, hn3, not_le.mpr h1]
  · norm_num [getHitWindows]
  · norm_num [hitTier, getHitWindows]
  · norm_num [hitTier, getHitWindows]

/-- Witness for `hit_window_tiers`: offset 30 at `od = 5` is within the
300 window and classifies as 300. -/
theorem hit_window_tiers_witness :
    (0 : ℚ) ≤ 30 ∧ (30 : ℚ) ≤ (getHitWindows 5).hit50 ∧
      (30 : ℚ) ≤ (getHitWindows 5).hit300 ∧ hitTier 5 30 = 300 := by
  refine ⟨by norm_num, by norm_num [getHitWindows], by norm_num [getHitWindows], ?_⟩
  exact ((hit_window_tiers.1 5 30 (by norm_num) (by norm_num [getHitWindows])).1
    (by norm_num [getHitWindows]))

/-- Claim C7 counterexample: with no objects judged the computed accuracy
is 100 yet the computed grade is "D", not the top grade "S"
(`calculateGrade` returns "D" before its accuracy check when the total
count is zero). -/
theorem zero_judged_grade_D :
    calculateAccuracy createEmptyStats = 100 ∧ calculateGrade createEmptyStats = "D" ∧
      "D" ≠ "S" := by
  refine ⟨?_, ?_, by decide⟩
  · norm_num [calculateAccuracy, createEmptyStats]
  · norm_num [calculateGrade, createEmptyStats]

/-- Claim C7 (amended): whenever at least one object was judged and the
computed accuracy is 100%, the computed grade is the top grade "S"; in
the zero-judged case the accuracy is defined as 100% but the grade is
"D". -/
theorem accuracy100_gives_S_when_judged :
    ∀ st : Stats, st.hit300 + st.hit100 + st.hit50 + st.misses ≠ 0 →
      calculateAccuracy st = 100 → calculateGrade st = "S" := by
  intro st hne hacc
  simp [calculateGrade, hne, hacc]

/-- Witness for `accuracy100_gives_S_when_judged`: one perfect 300. -/
theorem accuracy100_gives_S_when_judged_witness :
    (let st : Stats := ⟨300, 1, 1, 1, 0, 0, 0, 100⟩
     st.hit300 + st.hit100 + st.hit50 + st.misses ≠ 0 ∧
       calculateAccuracy st = 100 ∧ calculateGrade st = "S") := by
  refine ⟨by norm_num, by norm_num [calculateAccuracy], ?_⟩
  exact accuracy100_gives_S_when_judged _ (by norm_num) (by norm_num [calculateAccuracy])

/-- Every single scoring operation preserves `combo ≤ maxCombo` and
never decreases `maxCombo`. -/
theorem scoringStep_preserves {s t : Stats} (hstep : ScoringStep s t)
    (hinv : s.combo ≤ s.maxCombo) : t.combo ≤ t.maxCombo ∧ s.maxCombo ≤ t.maxCombo := by
  cases hstep with
  | start hv st => exact ⟨le_max_right _ _, le_max_left _ _⟩
  | hit hv mult st =>
    constructor <;> simp [processHit] <;> split_ifs <;> simp
  | ticks n st => exact ⟨le_max_right _ _, le_max_left _ _⟩
  | miss st => exact ⟨Nat.zero_le _, le_refl _⟩
  | sliderMiss st => exact ⟨Nat.zero_le _, le_refl _⟩
  | broken st => exact ⟨Nat.zero_le _, le_refl _⟩
  | complete sl st =>
    constructor <;> simp only [completeSlider] <;> split_ifs <;> simp [hinv]

/-- Claim C10: along any sequence of scoring operations (slider start,
circle hit, tick award, misses, broken tracking, slider completion),
`combo ≤ maxCombo` is preserved and `maxCombo` never decreases. -/
theorem combo_le_maxCombo_invariant :
    ∀ s t : Stats, Relation.ReflTransGen ScoringStep s t →
      s.combo ≤ s.maxCombo → t.combo ≤ t.maxCombo ∧ s.maxCombo ≤ t.maxCombo := by
  intro s t h
  induction h with
  | refl => exact fun h0 => ⟨h0, le_refl _⟩
  | tail _ hbc ih =>
    intro h0
    have hb := ih h0
    have hc := scoringStep_preserves hbc hb.1
    exact ⟨hc.1, le_trans hb.2 hc.2⟩

/-- Witness for `combo_le_maxCombo_invariant`: a hit followed by a miss
from the empty stats. -/
theorem combo_le_maxCombo_invariant_witness :
    (Relation.ReflTransGen ScoringStep createEmptyStats
        (processMiss (processHit 300 5 createEmptyStats)) ∧
      createEmptyStats.combo ≤ createEmptyStats.maxCombo) ∧
    (processMiss (processHit 300 5 createEmptyStats)).combo ≤
      (processMiss (processHit 300 5 createEmptyStats)).maxCombo ∧
    createEmptyStats.maxCombo ≤ (processMiss (processHit 300 5 createEmptyStats)).maxCombo := by
  have hsteps : Relation.ReflTransGen ScoringStep createEmptyStats
      (processMiss (processHit 300 5 createEmptyStats)) :=
    Relation.ReflTransGen.tail (Relation.ReflTransGen.single (ScoringStep.hit 300 5 _))
      (ScoringStep.miss _)
  exact ⟨⟨hsteps, Nat.le_refl _⟩,
    combo_le_maxCombo_invariant createEmptyStats _ hsteps (Nat.le_refl _)⟩

/-- `splitOnChar` never returns an empty list of groups. -/
theorem splitOnChar_ne_nil (sep : Char) (s : List Char) : splitOnChar sep s ≠ [] := by
  cases s with
  | nil => simp [splitOnChar]
  | cons c rest =>
    simp only [splitOnChar]
    split_ifs
    · simp
    · cases h : splitOnChar sep rest with
      | nil => simp
      | cons g gs => simp

/-- The first group of `splitOnChar` is the run of characters before the
first separator. -/
theorem splitOnChar_cons_head (sep : Char) (v : List Char) :
    ∃ gs, splitOnChar sep v = (v.takeWhile fun c => !(c == sep)) :: gs := by
  induction v with
  | nil => exact ⟨[], rfl⟩
  | cons c rest ih =>
    by_cases h : c = sep
    · subst h
      exact ⟨splitOnChar c rest, by simp [splitOnChar, List.takeWhile]⟩
    · obtain ⟨gs, hgs⟩ := ih
      refine ⟨gs, ?_⟩
      have hb : (c == sep) = false := by simp [h]
      simp [splitOnChar, h, hgs, List.takeWhile, hb]

/-- Splitting a string of the form `k ++ sep :: v` where `k` is
separator-free yields `k` followed by the groups of `v`. -/
theorem splitOnChar_append (sep : Char) (k v : List Char) (hk : sep ∉ k) :
    splitOnChar sep (k ++ sep :: v) = k :: splitOnChar sep v := by
  induction k with
  | nil => simp [splitOnChar]
  | cons c k2 ih =>
    have hc : ¬(c = sep) := fun h => hk (h ▸ List.mem_cons_self c k2)
    have hk2 : sep ∉ k2 := fun h => hk (List.mem_cons_of_mem _ h)
    simp [splitOnChar, hc, ih hk2]

/-- The `indexOf`/`slice` split of a string of the form `k ++ sep :: v`
with separator-free `k` is `(k, v)`. -/
theorem firstSplitAtChar_append (sep : Char) (k v : List Char) (hk : sep ∉ k) :
    firstSplitAtChar sep (k ++ sep :: v) = some (k, v) := by
  induction k with
  | nil => simp [firstSplitAtChar]
  | cons c k2 ih =>
    have hc : ¬(c = sep) := fun h => hk (h ▸ List.mem_cons_self c k2)
    have hk2 : sep ∉ k2 := fun h => hk (List.mem_cons_of_mem _ h)
    simp [firstSplitAtChar, hc, ih hk2]

/-- Claim C4 (amended): for a line `key:value-rest` whose key part has no
colon and trims to something non-empty, the Metadata parser keeps the
entire trimmed remainder after the first colon as the value, while the
General and Difficulty parsers (which use `split(':')` and keep only the
second component) keep only the trimmed text between the first and
second colon — a value containing a colon is truncated there. -/
theorem kv_first_colon_split :
    ∀ k v : List Char, ':' ∉ k → jsTrim k ≠ [] →
      metadataKV (k ++ ':' :: v) = some (jsTrim k, jsTrim v) ∧
      generalKV (k ++ ':' :: v) =
        some (jsTrim k, jsTrim (v.takeWhile fun c => !(c == ':'))) ∧
      difficultyKV (k ++ ':' :: v) =
        some (jsTrim k, jsTrim (v.takeWhile fun c => !(c == ':'))) := by
  intro k v hk hkey
  obtain ⟨gs, hgs⟩ := splitOnChar_cons_head ':' v
  have hsplit := splitOnChar_append ':' k v hk
  refine ⟨?_, ?_, ?_⟩
  · simp [metadataKV, firstSplitAtChar_append ':' k v hk]
  · simp [generalKV, hsplit, hgs, hkey]
  · simp [difficultyKV, hsplit, hgs, hkey]

/-- Witness for `kv_first_colon_split` on the line
`"Title: My:Song"`. -/
theorem kv_first_colon_split_witness :
    (':' ∉ "Title".toList ∧ jsTrim "Title".toList ≠ []) ∧
    metadataKV ("Title".toList ++ ':' :: " My:Song".toList) =
      some (jsTrim "Title".toList, jsTrim " My:Song".toList) := by
  exact ⟨⟨by decide, by decide⟩,
    (kv_first_colon_split "Title".toList " My:Song".toList (by decide) (by decide)).1⟩

/-- Claim C4 counterexample: on the General line
`"AudioFilename: a:b"` the parser produces the value `"a"`, while the
trimmed remainder after the first colon is `"a:b"`; the colon-containing
value is not preserved intact. -/
theorem generalKV_truncates_at_second_colon :
    generalKV "AudioFilename: a:b".toList =
      some ("AudioFilename".toList, "a".toList) ∧
    jsTrim " a:b".toList = "a:b".toList ∧
    "a".toList ≠ "a:b".toList := by
  exact ⟨by decide, by decide, by decide⟩

/-- The running combo invariant holds for the parser loop from any
starting state, provided every line either emits an object or is
skipped. -/
theorem parseGo_chain (n : ℕ) :
    ∀ (lines : List (List Char)) (cn ci : ℕ),
      (∀ l ∈ lines, lineEmits l = true) →
      comboChain n cn ci (parseHitObjectsGo (max 1 n) cn ci lines) := by
  intro lines
  induction lines with
  | nil => intro cn ci _; exact trivial
  | cons line rest ih =>
    intro cn ci hgood
    have hline := hgood line (List.mem_cons_self _ _)
    have hrest : ∀ l ∈ rest, lineEmits l = true := fun l hl => hgood l (List.mem_cons_of_mem _ hl)
    simp only [parseHitObjectsGo]
    by_cases h4 : (splitOnChar ',' line).length < 4
    · rw [if_pos h4]
      exact ih cn ci hrest
    · rw [if_neg h4]
      by_cases h8 : (toUInt32Bits (jsParseInt ((splitOnChar ',' line).getD 3 [])) &&& 8) ≠ 0
      · rw [if_pos h8]
        exact ih cn ci hrest
      · rw [if_neg h8]
        simp only [lineEmits] at hline
        rw [if_neg h4, if_neg h8] at hline
        by_cases hNew : (toUInt32Bits (jsParseInt ((splitOnChar ',' line).getD 3 [])) &&& 4) ≠ 0
        · have hNewB : decide ((toUInt32Bits (jsParseInt ((splitOnChar ',' line).getD 3 [])) &&& 4) ≠ 0) = true :=
            decide_eq_true hNew
          by_cases hS : (toUInt32Bits (jsParseInt ((splitOnChar ',' line).getD 3 [])) &&& 2) ≠ 0
          · rw [if_pos hS]
            simp only [hNewB, eq_self_iff_true, if_true, comboChain]
            refine ⟨Or.inl ⟨rfl, rfl, ?_⟩, ih 1 _ hrest⟩
            exact ⟨toUInt32Bits (jsParseInt ((splitOnChar ',' line).getD 3 [])) >>> 4 &&& 7,
              Nat.and_le_right, rfl⟩
          · rw [if_neg hS]
            have hC : (toUInt32Bits (jsParseInt ((splitOnChar ',' line).getD 3 [])) &&& 1) ≠ 0 := by
              rcases (Bool.or_eq_true _ _).mp hline with h | h
              · exact absurd (of_decide_eq_true h) hS
              · exact of_decide_eq_true h
            rw [if_pos hC]
            simp only [hNewB, eq_self_iff_true, if_true, comboChain]
            refine ⟨Or.inl ⟨rfl, rfl, ?_⟩, ih 1 _ hrest⟩
            exact ⟨toUInt32Bits (jsParseInt ((splitOnChar ',' line).getD 3 [])) >>> 4 &&& 7,
              Nat.and_le_right, rfl⟩
        · have hNewB : decide ((toUInt32Bits (jsParseInt ((splitOnChar ',' line).getD 3 [])) &&& 4) ≠ 0) = false :=
            decide_eq_false hNew
          by_cases hS : (toUInt32Bits (jsParseInt ((splitOnChar ',' line).getD 3 [])) &&& 2) ≠ 0
          · rw [if_pos hS]
            simp only [hNewB, Bool.false_eq_true, if_false, comboChain]
            exact ⟨Or.inr ⟨rfl, rfl, rfl⟩, ih _ _ hrest⟩
          · rw [if_neg hS]
            have hC : (toUInt32Bits (jsParseInt ((splitOnChar ',' line).getD 3 [])) &&& 1) ≠ 0 := by
              rcases (Bool.or_eq_true _ _).mp hline with h | h
              · exact absurd (of_decide_eq_true h) hS
              · exact of_decide_eq_true h
            rw [if_pos hC]
            simp only [hNewB, Bool.false_eq_true, if_false, comboChain]
            exact ⟨Or.inr ⟨rfl, rfl, rfl⟩, ih _ _ hrest⟩

/-- Claim C8 (amended): in every parsed chart all of whose `[HitObjects]`
lines either emit an object or are skipped entirely (malformed and
spinner lines; excluded are lines whose type bitmask has neither the
circle nor the slider bit, which advance the combo counter without
emitting an object), every parsed hit object either carries the
new-combo flag, has combo number exactly 1 and advances the color index
by `1 + comboSkip` modulo the palette size for its combo-skip value
`comboSkip ≤ 7`, or has combo number equal to its predecessor state plus
1 and keeps the color index. -/
theorem parseHitObjects_combo_invariant :
    ∀ (lines : List (List Char)) (n : ℕ),
      (∀ l ∈ lines, lineEmits l = true) →
      comboChain n 0 0 (parseHitObjects lines n) :=
  fun lines n h => parseGo_chain n lines 0 0 h

/-- Witness for `parseHitObjects_combo_invariant` on a two-line chart
(a new-combo circle followed by a plain circle). -/
theorem parseHitObjects_combo_invariant_witness :
    (∀ l ∈ ["0,0,0,5,0".toList, "0,0,100,1,0".toList], lineEmits l = true) ∧
    comboChain 4 0 0 (parseHitObjects ["0,0,0,5,0".toList, "0,0,100,1,0".toList] 4) :=
  ⟨by decide, parseHitObjects_combo_invariant _ 4 (by decide)⟩

/-- Claim C8 counterexample: a line whose type bitmask is 0 (neither
circle, slider nor spinner) advances the combo counter without emitting
an object, so the chart `["0,0,0,1,0", "0,0,100,0,0", "0,0,200,1,0"]`
parses to two objects with combo numbers 1 and 3: the second object
neither starts a new combo nor equals its predecessor's number plus 1. -/
theorem parseHitObjects_skipped_type_counterexample :
    (parseHitObjects ["0,0,0,1,0".toList, "0,0,100,0,0".toList, "0,0,200,1,0".toList] 4).map
        (fun o => o.comboNumber) = [1, 3] ∧
    (parseHitObjects ["0,0,0,1,0".toList, "0,0,100,0,0".toList, "0,0,200,1,0".toList] 4).map
        (fun o => o.isNewCombo) = [false, false] ∧
    (3 : ℕ) ≠ 1 + 1 := by
  exact ⟨by decide, by decide, by decide⟩

/-- The segment length is nonnegative. -/
theorem ptDist_nonneg (p q : Pt) : 0 ≤ ptDist p q := Real.sqrt_nonneg _

theorem polylineLength_nonneg : ∀ l : List Pt, 0 ≤ polylineLength l := by
  intro l
  induction l with
  | nil => simp [polylineLength]
  | cons p rest ih =>
    cases rest with
    | nil => simp [polylineLength]
    | cons q rest2 =>
      have : polylineLength (p :: q :: rest2) = ptDist p q + polylineLength (q :: rest2) := rfl
      rw [this]
      exact add_nonneg (ptDist_nonneg p q) ih

theorem ptDist_lerp (p q : Pt) (t : ℝ) (ht : 0 ≤ t) :
    ptDist p (lerpPt p q t) = t * ptDist p q := by
  simp only [ptDist, lerpPt, jsHypot]
  have h1 : (p.x + (q.x - p.x) * t - p.x) ^ 2 + (p.y + (q.y - p.y) * t - p.y) ^ 2 =
      t ^ 2 * ((q.x - p.x) ^ 2 + (q.y - p.y) ^ 2) := by ring
  rw [h1, Real.sqrt_mul (sq_nonneg t), Real.sqrt_sq_eq_abs, abs_of_nonneg ht]

theorem trimGo_spec : ∀ (rest : List Pt) (prev : Pt) (cum target : ℝ), cum ≤ target →
    polylineLength (prev :: trimGo target prev cum rest) ≤ target - cum ∧
    (target - cum ≤ polylineLength (prev :: rest) →
      polylineLength (prev :: trimGo target prev cum rest) = target - cum) := by
  intro rest
  induction rest with
  | nil =>
    intro prev cum target h
    constructor
    · simp [trimGo, polylineLength]
      linarith
    · intro hge
      have h0 : polylineLength [prev] = 0 := rfl
      rw [h0] at hge
      simp [trimGo, polylineLength]
      linarith
  | cons curr rest2 ih =>
    intro prev cum target h
    simp only [trimGo]
    by_cases hc : target ≤ cum + ptDist prev curr
    · rw [if_pos hc]
      have hnn := ptDist_nonneg prev curr
      have ht : 0 ≤ (target - cum) / ptDist prev curr := div_nonneg (by linarith) hnn
      have hdist : polylineLength
          [prev, lerpPt prev curr ((target - cum) / ptDist prev curr)] = target - cum := by
        have hstep : polylineLength
            [prev, lerpPt prev curr ((target - cum) / ptDist prev curr)] =
            ptDist prev (lerpPt prev curr ((target - cum) / ptDist prev curr)) := by
          simp [polylineLength]
        rw [hstep, ptDist_lerp prev curr _ ht]
        by_cases hz : ptDist prev curr = 0
        · have heq : target = cum := le_antisymm (by simpa [hz] using hc) h
          simp [hz, heq]
        · rw [div_mul_cancel₀ _ hz]
      exact ⟨le_of_eq hdist, fun _ => hdist⟩
    · rw [if_neg hc]
      push_neg at hc
      have h2 : cum + ptDist prev curr ≤ target := le_of_lt hc
      have ihs := ih curr (cum + ptDist prev curr) target h2
      have hsplit : polylineLength (prev :: curr :: trimGo target curr (cum + ptDist prev curr) rest2) =
          ptDist prev curr + polylineLength (curr :: trimGo target curr (cum + ptDist prev curr) rest2) := rfl
      constructor
      · rw [hsplit]
        linarith [ihs.1]
      · intro hge
        have hfull : polylineLength (prev :: curr :: rest2) =
            ptDist prev curr + polylineLength (curr :: rest2) := rfl
        rw [hfull] at hge
        have := ihs.2 (by linarith)
        rw [hsplit, this]
        ring

theorem trimCurveToLength_spec (points : List Pt) (target : ℝ) (h : 0 ≤ target) :
    polylineLength (trimCurveToLength points target) ≤ target ∧
    (target ≤ polylineLength points → polylineLength (trimCurveToLength points target) = target) := by
  match points with
  | [] =>
    refine ⟨by simpa [trimCurveToLength, polylineLength] using h, fun hge => ?_⟩
    have h0 : polylineLength ([] : List Pt) = 0 := rfl
    rw [h0] at hge
    simp [trimCurveToLength, polylineLength]
    linarith
  | [p] =>
    refine ⟨by simpa [trimCurveToLength, polylineLength] using h, fun hge => ?_⟩
    have h0 : polylineLength [p] = 0 := rfl
    rw [h0] at hge
    simp [trimCurveToLength, polylineLength]
    linarith
  | p :: q :: rest =>
    have hgo := trimGo_spec (q :: rest) p 0 target (by linarith)
    have hshape : trimCurveToLength (p :: q :: rest) target = p :: trimGo target p 0 (q :: rest) := rfl
    rw [hshape]
    simpa using hgo

theorem generateCurveRaw_line_eval :
    generateCurveRaw ['L'] 0 0 [⟨10, 0⟩] 1 = [⟨0, 0⟩, ⟨10, 0⟩] := by
  norm_num [generateCurveRaw, generateLinearCurve, lerpPt, List.range_succ]

theorem trimGo_ne_nil (target : ℝ) (prev : Pt) (cum : ℝ) (curr : Pt) (rest : List Pt) :
    trimGo target prev cum (curr :: rest) ≠ [] := by
  simp only [trimGo]
  split_ifs <;> simp

theorem trimCurveToLength_len (points : List Pt) (target : ℝ) (h : 2 ≤ points.length) :
    2 ≤ (trimCurveToLength points target).length := by
  match points, h with
  | p :: q :: rest, _ =>
    have hne := trimGo_ne_nil target p 0 q rest
    have hshape : trimCurveToLength (p :: q :: rest) target = p :: trimGo target p 0 (q :: rest) := rfl
    rw [hshape]
    have hlen : 0 < (trimGo target p 0 (q :: rest)).length := List.length_pos.mpr hne
    simp only [List.length_cons]
    omega

theorem generateLinearCurve_len (points : List Pt) (res : ℕ)
    (hp : 2 ≤ points.length) (hres : 1 ≤ res) :
    2 ≤ (generateLinearCurve points res).length := by
  have hn : ¬points.length < 2 := by omega
  simp only [generateLinearCurve, if_neg hn]
  obtain ⟨k, hk⟩ : ∃ k, points.length - 1 = k + 1 := ⟨points.length - 2, by omega⟩
  rw [hk]
  nth_rewrite 2 [List.range_succ]
  rw [List.map_append, List.flatten_append]
  simp only [List.map_cons, List.map_nil, List.flatten_cons, List.flatten_nil,
    List.length_append, List.length_map, List.length_range, List.append_nil]
  have hppspos : 1 ≤ (res + (k + 1) - 1) / (k + 1) := by
    apply (Nat.one_le_div_iff (by omega)).mpr
    omega
  omega

theorem splitSegsGo_mem : ∀ (rest cur : List Pt) (prev : Pt) (s : List Pt),
    s ∈ splitSegsGo cur prev rest → 2 ≤ s.length := by
  intro rest
  induction rest with
  | nil =>
    intro cur prev s hs
    simp only [splitSegsGo] at hs
    split_ifs at hs with h
    · rcases List.mem_singleton.mp hs with rfl
      omega
    · simp at hs
  | cons curr rest2 ih =>
    intro cur prev s hs
    simp only [splitSegsGo] at hs
    split_ifs at hs with heq hlen
    · rcases List.mem_append.mp hs with h1 | h1
      · rcases List.mem_singleton.mp h1 with rfl
        omega
      · exact ih _ _ _ h1
    · rw [List.nil_append] at hs
      exact ih _ _ _ hs
    · exact ih _ _ _ hs

theorem splitBezierSegments_spec (points : List Pt) (h : 2 ≤ points.length) :
    splitBezierSegments points ≠ [] ∧ ∀ s ∈ splitBezierSegments points, 2 ≤ s.length := by
  match points, h with
  | p :: rest, h =>
    simp only [splitBezierSegments]
    split_ifs with hlen
    · refine ⟨fun hc => by simp [hc] at hlen, fun s hs => splitSegsGo_mem _ _ _ _ hs⟩
    · refine ⟨by simp, fun s hs => ?_⟩
      rcases List.mem_singleton.mp hs with rfl
      exact h

theorem generateBezierCurve_len (points : List Pt) (res : ℕ)
    (hp : 2 ≤ points.length) (hres : 1 ≤ res) :
    2 ≤ (generateBezierCurve points res).length := by
  have hn : ¬points.length < 2 := by omega
  simp only [generateBezierCurve, if_neg hn]
  obtain ⟨hne, hall⟩ := splitBezierSegments_spec points hp
  obtain ⟨s0, srest, hsegs⟩ := List.exists_cons_of_ne_nil hne
  rw [hsegs]
  simp only [List.map_cons, List.flatten_cons, List.length_append]
  have h0 : 2 ≤ s0.length := hall s0 (by rw [hsegs]; exact List.mem_cons_self _ _)
  have hno : ¬s0.length < 2 := by omega
  rw [if_neg hno]
  simp only [List.length_map, List.length_range]
  omega

theorem generatePerfectCircleCurve_len (points : List Pt) (res : ℕ)
    (hp : 2 ≤ points.length) (hres : 1 ≤ res) :
    2 ≤ (generatePerfectCircleCurve points res).length := by
  match points, hp with
  | [p1, p2], _ =>
    show 2 ≤ (generateLinearCurve [p1, p2] res).length
    exact generateLinearCurve_len [p1, p2] res (by norm_num) hres
  | p1 :: p2 :: p3 :: rest, _ =>
    simp only [generatePerfectCircleCurve]
    cases hc : getCircleCenter p1 p2 p3 with
    | none =>
      simp only [hc]
      exact generateLinearCurve_len _ _ (by simp only [List.length_cons]; omega) hres
    | some center =>
      simp only [hc, List.length_map, List.length_range]
      omega

/-- Claim C5: for every curve type and every nonnegative target length,
the generated curve's cumulative polyline length never exceeds the
target, and whenever the target is at most the raw sampled curve's total
polyline length the trimmed curve's cumulative length equals the target
exactly (so in particular within any relative tolerance); it is smaller
than the target only when the raw curve itself is shorter. -/
theorem generateCurve_length_normalization :
    ∀ (ty : List Char) (sx sy : ℝ) (cps : List Pt) (L : ℝ) (res : ℕ), 0 ≤ L →
      polylineLength (generateCurve ty sx sy cps L res) ≤ L ∧
      (L ≤ polylineLength (generateCurveRaw ty sx sy cps res) →
        polylineLength (generateCurve ty sx sy cps L res) = L) := by
  intro ty sx sy cps L res hL
  exact trimCurveToLength_spec _ L hL

/-- Witness for `generateCurve_length_normalization`: a straight segment
of raw length 10 trimmed to length 5. -/
theorem generateCurve_length_normalization_witness :
    ((0 : ℝ) ≤ 5 ∧ (5 : ℝ) ≤ polylineLength (generateCurveRaw ['L'] 0 0 [⟨10, 0⟩] 1)) ∧
    polylineLength (generateCurve ['L'] 0 0 [⟨10, 0⟩] 5 1) = 5 := by
  have hlen : polylineLength (generateCurveRaw ['L'] 0 0 [⟨10, 0⟩] 1) = 10 := by
    rw [generateCurveRaw_line_eval]
    have hstep : polylineLength [(⟨0, 0⟩ : Pt), ⟨10, 0⟩] = ptDist ⟨0, 0⟩ ⟨10, 0⟩ := by
      simp [polylineLength]
    rw [hstep]
    simp only [ptDist, jsHypot]
    norm_num
    rw [show (100 : ℝ) = 10 ^ 2 by norm_num, Real.sqrt_sq (by norm_num : (0 : ℝ) ≤ 10)]
  refine ⟨⟨by norm_num, by rw [hlen]; norm_num⟩, ?_⟩
  exact (generateCurve_length_normalization ['L'] 0 0 [⟨10, 0⟩] 5 1 (by norm_num)).2
    (by rw [hlen]; norm_num)

/-- Claim C9 (amended): for every slider whose control-point list has at
least one valid point (and any positive sample resolution, as used by
the game which passes 100), the generated curve has at least 2 samples;
a slider with no valid control points degenerates to the single start
point. -/
theorem generateCurve_at_least_two_samples :
    ∀ (ty : List Char) (sx sy : ℝ) (cps : List Pt) (L : ℝ) (res : ℕ),
      cps ≠ [] → 1 ≤ res → 2 ≤ (generateCurve ty sx sy cps L res).length := by
  intro ty sx sy cps L res hcps hres
  have hall : 2 ≤ (Pt.mk sx sy :: cps).length := by
    cases cps with
    | nil => exact absurd rfl hcps
    | cons a b => simp [List.length_cons]
  have hraw : 2 ≤ (generateCurveRaw ty sx sy cps res).length := by
    simp only [generateCurveRaw]
    split_ifs
    · exact generateLinearCurve_len _ _ hall hres
    · exact generatePerfectCircleCurve_len _ _ hall hres
    · exact generateBezierCurve_len _ _ hall hres
  exact trimCurveToLength_len _ _ hraw

/-- Witness for `generateCurve_at_least_two_samples`. -/
theorem generateCurve_at_least_two_samples_witness :
    (([⟨10, 0⟩] : List Pt) ≠ [] ∧ 1 ≤ 1) ∧
    2 ≤ (generateCurve ['L'] 0 0 [⟨10, 0⟩] 5 1).length :=
  ⟨⟨List.cons_ne_nil _ _, le_refl 1⟩,
    generateCurve_at_least_two_samples ['L'] 0 0 [⟨10, 0⟩] 5 1 (List.cons_ne_nil _ _) (le_refl 1)⟩

/-- Claim C9 counterexample: a Bezier slider whose control-point list is
empty produces a curve of exactly one sample point, not at least 2. -/
theorem generateCurve_single_point_counterexample :
    (generateCurve ['B'] 0 0 [] 100 50).length = 1 ∧
    ¬2 ≤ (generateCurve ['B'] 0 0 [] 100 50).length := by
  constructor
  · rfl
  · intro hc
    rw [show (generateCurve ['B'] 0 0 [] 100 50).length = 1 from rfl] at hc
    omega

end OsuPone
